import Mathlib

/-!
# Serial link between a host computer and an Arduino

A shallow embedding of `arduino_serial_interface_computer-side.cpp`.

* A `char` and a raw byte are natural numbers; a C string is the list of its
  characters before the closing NUL.
* A `HANDLE` is a natural number, `NULL` being `0`.
* Every call the program makes to the operating system or to the C library
  that the properties below talk about is recorded, in program order, as a
  `Call`; a function of the program returns its C result together with the
  calls it made.
* What the operating system answers (the result of `CreateFile`, of
  `WriteFile`, the pending-input count, ...) is an argument of the embedded
  function, so that every theorem holds for every behaviour of the device.
-/

namespace ArduinoSerial

/-! ## Data model -/

/-- A Windows `HANDLE`; `NULL` is `0`. -/
abbrev HANDLE := Nat

/-- Calls to the operating system and the C library, with the arguments that matter. -/
inductive Call where
  /-- The call `CreateFile("COM<nr>", GENERIC_READ | GENERIC_WRITE, ...)`. -/
  | CreateFile (portnr : Nat)
  /-- The call `QueryDosDevice("COM<nr>", devicePath, MAX_PATH)`. -/
  | QueryDosDevice (portnr : Nat)
  | GetCommState (h : HANDLE)
  /-- The call `SetCommState` with 9600 baud, 8 bits, one stop bit, no parity, DTR disabled. -/
  | SetCommState (h : HANDLE)
  /-- The call `PurgeComm(h, PURGE_RXCLEAR)`. -/
  | PurgeComm (h : HANDLE)
  | CloseHandle (h : HANDLE)
  | FlushFileBuffers (h : HANDLE)
  /-- The call `WriteFile(h, data, |data|, &bytesSent, NULL)`; `accepted` is `bytesSent` afterwards. -/
  | WriteFile (h : HANDLE) (data : List Nat) (accepted : Nat)
  | ClearCommError (h : HANDLE)
  /-- The call `ReadFile(h, readBuffer, 1, &bytesRead, NULL)`. -/
  | ReadFile (h : HANDLE)
  /-- The helper `showWarning(text)`, a message box with caption "error". -/
  | showWarning (text : String)
  /-- The call `MessageBox(NULL, text, "message received from Arduino", ...)`. -/
  | MessageBox (text : List Nat)
  | Beep (freq dur : Nat)
  /-- The call `strtol(text, NULL, 10)`. -/
  | strtol (text : List Nat)
  /-- Entry of the branch of line 173, where `doSomethingWith(nr)` is to be put. -/
  | doSomethingWith (nr : Int)
  deriving DecidableEq, Repr

/-- What the operating system answers when port `COM<nr>` is probed by `connecttoPort`. -/
structure PortProbe where
  /-- Result of `CreateFile`; `none` is `INVALID_HANDLE_VALUE`. -/
  hSerial : Option HANDLE
  /-- Whether `strstr(devicePath, "Device\\Serial")` finds the substring. -/
  serialPath : Bool
  /-- Result of `SetCommState`. -/
  setCommState : Bool
  deriving DecidableEq, Repr

/-- What `WriteFile` answers: its `BOOL` result and the value it leaves in `bytesSent`. -/
structure WriteResult where
  ok : Bool
  bytesSent : Nat
  deriving DecidableEq, Repr

/-- What the device answers during one iteration of the loop of `main`. -/
structure Poll where
  /-- The field `serialStatus.cbInQue` after `ClearCommError`. -/
  cbInQue : Nat
  /-- Result of `ReadFile`, when it is called. -/
  readOk : Bool
  /-- The character `readBuffer[0]` after `ReadFile` (`0` when nothing was stored). -/
  readBuffer0 : Nat
  /-- Answer to `WriteFile` of the text, when `sendtoPort` is called. -/
  w1 : WriteResult
  /-- Answer to `WriteFile` of the closing newline, when it is called. -/
  w2 : WriteResult
  deriving DecidableEq, Repr

/-- The local variables `readtext` and `textlength` of `main`. -/
structure Buffer where
  readtext : List Nat
  textlength : Nat
  deriving DecidableEq, Repr

/-! ## C library -/

/-- The string a C function reads from a character array: the characters before the first NUL. -/
def cstr (a : List Nat) : List Nat := a.takeWhile (fun c => c != 0)

/-- The function `isprint` of the "C" locale (the program never changes the locale): space to tilde.
Bytes above `0x7F`, which a signed `char` passes as negative values, are classified as not printable. -/
def isprint (c : Nat) : Bool := 32 ≤ c && c ≤ 126

/-- The function `isspace` of the "C" locale. -/
def isspace (c : Nat) : Bool := c == 32 || (9 ≤ c && c ≤ 13)

/-- The function `isdigit`. -/
def isdigit (c : Nat) : Bool := 48 ≤ c && c ≤ 57

/-- The greatest `long` of the Windows ABI (32 bits). -/
def LONG_MAX : Int := 2147483647

/-- The least `long` of the Windows ABI (32 bits). -/
def LONG_MIN : Int := -2147483648

/-- Value of a run of decimal digits. -/
def digitsValue (ds : List Nat) : Nat := ds.foldl (fun acc d => acc * 10 + (d - 48)) 0

/-- Sign and rest of the subject sequence of `strtol`. -/
def splitSign : List Nat → Bool × List Nat
  | 45 :: r => (true, r)
  | 43 :: r => (false, r)
  | s => (false, s)

/-- The function `strtol(nptr, NULL, 10)`: leading white space is skipped, an optional sign and the
longest run of decimal digits are converted, `0` is returned when there is no digit, and a value out
of range is clamped to `LONG_MAX` or `LONG_MIN`. -/
def strtol (nptr : List Nat) : Int :=
  let s := splitSign (nptr.dropWhile isspace)
  let mag := digitsValue (s.2.takeWhile isdigit)
  if s.1 then (if (mag : Int) > -LONG_MIN then LONG_MIN else -(mag : Int))
  else (if (mag : Int) > LONG_MAX then LONG_MAX else (mag : Int))

/-! ## The functions of the program -/

/-- The function `connecttoPort(portnr)` (lines 32-72). -/
def connecttoPort (portnr : Nat) (os : PortProbe) : HANDLE × List Call :=
  match os.hSerial with
  | none => (0, [Call.CreateFile portnr])
  | some hSerial =>
    if !os.serialPath then
      (0, [Call.CreateFile portnr, Call.QueryDosDevice portnr, Call.CloseHandle hSerial])
    else if !os.setCommState then
      (0, [Call.CreateFile portnr, Call.QueryDosDevice portnr, Call.GetCommState hSerial,
           Call.SetCommState hSerial, Call.CloseHandle hSerial,
           Call.showWarning "could not set serial port parameters"])
    else
      (hSerial, [Call.CreateFile portnr, Call.QueryDosDevice portnr, Call.GetCommState hSerial,
                 Call.SetCommState hSerial, Call.PurgeComm hSerial])

/-- The function `sendtoPort(serialPort, sendText)` (lines 76-89); `sendText` is the string, so
`strlen(sendText)` is its length. The result is the `int` returned. -/
def sendtoPort (serialPort : HANDLE) (sendText : List Nat) (w1 w2 : WriteResult) :
    Nat × List Call :=
  if serialPort = 0 then (0, [])
  else if !w1.ok then (0, [Call.WriteFile serialPort sendText w1.bytesSent])
  else (if w2.ok then 1 else 0,
        [Call.WriteFile serialPort sendText w1.bytesSent, Call.WriteFile serialPort [10] w2.bytesSent])

/-- The function `readfromPort(serialPort)` (lines 93-111); the result is the `char` returned. -/
def readfromPort (serialPort : HANDLE) (p : Poll) : Nat × List Call :=
  if serialPort = 0 then (0, [])
  else if p.cbInQue ≠ 0 then
    if p.readOk then (p.readBuffer0, [Call.ClearCommError serialPort, Call.ReadFile serialPort])
    else (0, [Call.ClearCommError serialPort, Call.ReadFile serialPort])
  else (0, [Call.ClearCommError serialPort])

/-- The function `closePort(serialPort)` (lines 115-120). It returns nothing and receives the
handle by value: the variable of the caller keeps its value. -/
def closePort (serialPort : HANDLE) : List Call :=
  if serialPort = 0 then [] else [Call.FlushFileBuffers serialPort, Call.CloseHandle serialPort]

/-- The constant `MAX_LENGTH` of `main`. -/
def MAX_LENGTH : Nat := 100

/-- The buffer as declared at lines 142-143: 101 NUL characters and `textlength = 0`. -/
def initBuffer : Buffer := ⟨List.replicate (MAX_LENGTH + 1) 0, 0⟩

/-- The acknowledgement of line 178, "message received!!!". -/
def ackText : List Nat :=
  [109, 101, 115, 115, 97, 103, 101, 32, 114, 101, 99, 101, 105, 118, 101, 100, 33, 33, 33]

/-- Lines 154-156: the received character is stored when it is printable and there is room. -/
def store (readchar : Nat) (b : Buffer) : Buffer :=
  if isprint readchar && b.textlength < MAX_LENGTH then
    ⟨b.readtext.set b.textlength readchar, b.textlength + 1⟩
  else b

/-- The condition of line 173, `nr != 0 || readtext[0] == '0'`, with `nr = strtol(readtext, NULL, 10)`. -/
def hasNumber (readtext : List Nat) : Bool :=
  strtol (cstr readtext) != 0 || readtext.head? == some 48

/-- Lines 165-182: what is done with the accumulated text upon a newline character. -/
def lineComplete (Arduino : HANDLE) (w1 w2 : WriteResult) (b : Buffer) : Buffer × List Call :=
  ((⟨b.readtext.set 0 0, 0⟩ : Buffer),
   (if b.textlength > 0 then [Call.MessageBox (cstr b.readtext)] else [])
   ++ [Call.strtol (cstr b.readtext)]
   ++ (if hasNumber b.readtext then [Call.doSomethingWith (strtol (cstr b.readtext))] else [])
   ++ (sendtoPort Arduino ackText w1 w2).2)

/-- Lines 153-183: the body run for a received character `readchar` (non-zero). -/
def loopBody (Arduino : HANDLE) (readchar : Nat) (w1 w2 : WriteResult) (b : Buffer) :
    Buffer × List Call :=
  let b1 := store readchar b
  if readchar = 98 then (b1, [Call.Beep 500 100])
  else if readchar = 10 then lineComplete Arduino w1 w2 b1
  else (b1, [])

/-- Lines 152-184: one iteration of the loop of `main` (after the `Sleep`). -/
def iteration (Arduino : HANDLE) (p : Poll) (b : Buffer) : Buffer × List Call :=
  let r := readfromPort Arduino p
  if r.1 ≠ 0 then
    let o := loopBody Arduino r.1 p.w1 p.w2 b
    (o.1, r.2 ++ o.2)
  else (b, r.2)

/-- The `while` loop of lines 145-186, run for as many iterations as `polls` has answers; when
the loop ends is decided by the escape key and the clock, outside of the program. -/
def whileLoop (Arduino : HANDLE) : List Poll → Buffer → Buffer × List Call
  | [], b => (b, [])
  | p :: ps, b =>
    let o := iteration Arduino p b
    let r := whileLoop Arduino ps o.1
    (r.1, o.2 ++ r.2)

/-- The `for` loop of lines 129-131, from port number `nr` down to `0`; the result is the value
of `Arduino` after the loop. -/
def scanPorts (os : Nat → PortProbe) : Nat → HANDLE × List Call
  | 0 => connecttoPort 0 (os 0)
  | nr + 1 =>
    let r := connecttoPort (nr + 1) (os (nr + 1))
    if r.1 ≠ 0 then r
    else
      let q := scanPorts os nr
      (q.1, r.2 ++ q.2)

/-- The function `main` (lines 124-191); the result is the `int` returned. -/
def main (os : Nat → PortProbe) (polls : List Poll) : Nat × List Call :=
  let a := scanPorts os 20
  if a.1 = 0 then (0, a.2 ++ [Call.showWarning "could not connect to serial port"])
  else (1, a.2 ++ (whileLoop a.1 polls initBuffer).2 ++ closePort a.1)

/-! ## Vocabulary of the properties -/

/-- A device answer that delivers the character `c` and accepts every write in full. -/
def rx (c : Nat) : Poll := ⟨1, true, c, ⟨true, ackText.length⟩, ⟨true, 1⟩⟩

/-- The characters `readfromPort` returns over the iterations (`0` where it returns none). -/
def received (Arduino : HANDLE) (polls : List Poll) : List Nat :=
  polls.map (fun p => (readfromPort Arduino p).1)

/-- The texts handed to the numeric parse, one for each completed line. -/
def parsedTexts : List Call → List (List Nat)
  | [] => []
  | Call.strtol t :: cs => t :: parsedTexts cs
  | _ :: cs => parsedTexts cs

/-- The texts shown to the user as received messages. -/
def shownTexts : List Call → List (List Nat)
  | [] => []
  | Call.MessageBox t :: cs => t :: shownTexts cs
  | _ :: cs => shownTexts cs

/-- The port numbers that were tried, in the order of the attempts. -/
def attempts : List Call → List Nat
  | [] => []
  | Call.CreateFile nr :: cs => nr :: attempts cs
  | _ :: cs => attempts cs

/-- The port numbers `hi, hi - 1, ..., lo`. -/
def descending (hi lo : Nat) : List Nat := (List.range (hi + 1 - lo)).map (fun i => hi - i)

/-- A call by which the dispatcher reacts to a byte: a tone, a shown message or a write. -/
def isReaction : Call → Bool
  | Call.Beep _ _ => true
  | Call.MessageBox _ => true
  | Call.WriteFile _ _ _ => true
  | _ => false

/-- The text that the specification expects for a line: the printable bytes, at most 100. -/
def lineText (bytes : List Nat) : List Nat := (bytes.filter isprint).take MAX_LENGTH

/-- The data of the writes to the device, in order. -/
def writes : List Call → List (List Nat)
  | [] => []
  | Call.WriteFile _ d _ :: cs => d :: writes cs
  | _ :: cs => writes cs

/-- The invariant of the line buffer: the array keeps its 101 characters, `textlength` stays
within `MAX_LENGTH`, the characters counted by `textlength` are printable, and an empty buffer
starts with NUL. -/
def BufferOk (b : Buffer) : Prop :=
  b.readtext.length = MAX_LENGTH + 1 ∧ b.textlength ≤ MAX_LENGTH ∧
  (∀ c ∈ b.readtext.take b.textlength, isprint c = true) ∧
  (b.textlength = 0 → b.readtext.head? = some 0)

/-- The buffer holding the text `q` followed by NUL characters only. -/
def fresh (q : List Nat) : Buffer := ⟨q ++ List.replicate (MAX_LENGTH + 1 - q.length) 0, q.length⟩

/-- Port `nr` connects: `connecttoPort(nr)` returns a handle other than `NULL`. -/
def connects (os : Nat → PortProbe) (nr : Nat) : Bool := (connecttoPort nr (os nr)).1 != 0

/-- A call that only the read loop makes. -/
def isLoopCall : Call → Bool
  | Call.ClearCommError _ => true
  | Call.ReadFile _ => true
  | Call.WriteFile _ _ _ => true
  | Call.MessageBox _ => true
  | Call.Beep _ _ => true
  | Call.strtol _ => true
  | Call.doSomethingWith _ => true
  | _ => false

/-- The warning of line 132. -/
def noPortWarning : Call := Call.showWarning "could not connect to serial port"

/-- Port 17 holds a serial device, the other ports cannot be opened. -/
def onlyPort17 (nr : Nat) : PortProbe :=
  if nr = 17 then ⟨some 5, true, true⟩ else ⟨none, false, false⟩

/-- No port can be opened. -/
def noPort (_ : Nat) : PortProbe := ⟨none, false, false⟩

/-! ## Lemmas on the line buffer -/

theorem take_succ_set (l : List Nat) (n c : Nat) (h : n < l.length) :
    (l.set n c).take (n + 1) = l.take n ++ [c] := by
  induction l generalizing n with
  | nil => simp at h
  | cons a l ih =>
    cases n with
    | zero => simp
    | succ n =>
      simp only [List.length_cons, Nat.add_lt_add_iff_right] at h
      simp [ih n h]

theorem initBuffer_ok : BufferOk initBuffer := by
  refine ⟨by simp [initBuffer], by simp [initBuffer], ?_, ?_⟩
  · simp [initBuffer]
  · intro _; rfl

theorem store_ok (c : Nat) (b : Buffer) (hb : BufferOk b) : BufferOk (store c b) := by
  obtain ⟨hl, hn, hp, h0⟩ := hb
  unfold store
  by_cases hg : (isprint c && decide (b.textlength < MAX_LENGTH)) = true
  · rw [if_pos hg]
    simp only [Bool.and_eq_true, decide_eq_true_eq] at hg
    refine ⟨by simpa using hl, hg.2, ?_, ?_⟩
    · intro x hx
      have hlt : b.textlength < b.readtext.length := by rw [hl]; omega
      simp only [take_succ_set _ _ _ hlt, List.mem_append, List.mem_singleton] at hx
      rcases hx with hx | hx
      · exact hp x hx
      · rw [hx]; exact hg.1
    · intro h; simp at h
  · rw [if_neg hg]; exact ⟨hl, hn, hp, h0⟩

theorem lineComplete_ok (A : HANDLE) (w1 w2 : WriteResult) (b : Buffer) (hb : BufferOk b) :
    BufferOk (lineComplete A w1 w2 b).1 := by
  obtain ⟨hl, _, _, _⟩ := hb
  refine ⟨by simpa [lineComplete] using hl, by simp [lineComplete], by simp [lineComplete], ?_⟩
  intro _
  cases hr : b.readtext with
  | nil => rw [hr] at hl; simp [MAX_LENGTH] at hl
  | cons a l => simp [lineComplete, hr]

theorem loopBody_ok (A : HANDLE) (c : Nat) (w1 w2 : WriteResult) (b : Buffer)
    (hb : BufferOk b) : BufferOk (loopBody A c w1 w2 b).1 := by
  unfold loopBody
  by_cases h98 : c = 98
  · simp only [h98, if_true]; exact store_ok 98 b hb
  · by_cases h10 : c = 10
    · simp only [h10, if_true]
      exact lineComplete_ok A w1 w2 _ (store_ok 10 b hb)
    · simp only [h98, h10, if_false]; exact store_ok c b hb

theorem iteration_ok (A : HANDLE) (p : Poll) (b : Buffer) (hb : BufferOk b) :
    BufferOk (iteration A p b).1 := by
  unfold iteration
  by_cases h : (readfromPort A p).1 ≠ 0
  · rw [if_pos h]; exact loopBody_ok A _ _ _ b hb
  · rw [if_neg h]; exact hb

theorem whileLoop_ok (A : HANDLE) (polls : List Poll) (b : Buffer) (hb : BufferOk b) :
    BufferOk (whileLoop A polls b).1 := by
  induction polls generalizing b with
  | nil => exact hb
  | cons p ps ih => exact ih _ (iteration_ok A p b hb)

/-! ## Lemmas on the numeric payload -/

theorem cstr_head (a : List Nat) :
    (cstr a).head? = some 48 ↔ a.head? = some 48 := by
  cases a with
  | nil => simp [cstr]
  | cons c r =>
    by_cases hc : c = 0
    · subst hc; simp [cstr]
    · simp [cstr, List.takeWhile_cons, hc]

theorem sendtoPort_no_hook (A : HANDLE) (t : List Nat) (w1 w2 : WriteResult) (n : Int) :
    Call.doSomethingWith n ∉ (sendtoPort A t w1 w2).2 := by
  unfold sendtoPort
  split
  · simp
  · split <;> simp

theorem sendtoPort_no_beep (A : HANDLE) (t : List Nat) (w1 w2 : WriteResult) (f d : Nat) :
    Call.Beep f d ∉ (sendtoPort A t w1 w2).2 := by
  unfold sendtoPort
  split
  · simp
  · split <;> simp

/-! ## Lemmas on the traces and on a single line -/

theorem whileLoop_append (A : HANDLE) (ps qs : List Poll) (b : Buffer) :
    whileLoop A (ps ++ qs) b =
      ((whileLoop A qs (whileLoop A ps b).1).1,
       (whileLoop A ps b).2 ++ (whileLoop A qs (whileLoop A ps b).1).2) := by
  induction ps generalizing b with
  | nil => simp [whileLoop]
  | cons p ps ih => simp [whileLoop, ih]

theorem parsedTexts_append (xs ys : List Call) :
    parsedTexts (xs ++ ys) = parsedTexts xs ++ parsedTexts ys := by
  induction xs with
  | nil => rfl
  | cons x xs ih => cases x <;> simp [parsedTexts, ih]

theorem shownTexts_append (xs ys : List Call) :
    shownTexts (xs ++ ys) = shownTexts xs ++ shownTexts ys := by
  induction xs with
  | nil => rfl
  | cons x xs ih => cases x <;> simp [shownTexts, ih]

theorem writes_append (xs ys : List Call) :
    writes (xs ++ ys) = writes xs ++ writes ys := by
  induction xs with
  | nil => rfl
  | cons x xs ih => cases x <;> simp [writes, ih]

theorem readfromPort_quiet (A : HANDLE) (p : Poll) :
    parsedTexts (readfromPort A p).2 = [] ∧ shownTexts (readfromPort A p).2 = [] ∧
    writes (readfromPort A p).2 = [] := by
  unfold readfromPort
  split
  · exact ⟨rfl, rfl, rfl⟩
  · split
    · split <;> exact ⟨rfl, rfl, rfl⟩
    · exact ⟨rfl, rfl, rfl⟩

theorem sendtoPort_quiet (A : HANDLE) (t : List Nat) (w1 w2 : WriteResult) :
    parsedTexts (sendtoPort A t w1 w2).2 = [] ∧ shownTexts (sendtoPort A t w1 w2).2 = [] := by
  unfold sendtoPort
  split
  · exact ⟨rfl, rfl⟩
  · split <;> exact ⟨rfl, rfl⟩

theorem store_fresh (c : Nat) (q : List Nat) :
    store c (fresh q) =
      fresh (if isprint c = true ∧ q.length < MAX_LENGTH then q ++ [c] else q) := by
  unfold store
  by_cases hg : isprint c = true ∧ q.length < MAX_LENGTH
  · have hg' : (isprint c && decide ((fresh q).textlength < MAX_LENGTH)) = true := by
      simp [fresh, hg.1, hg.2]
    rw [if_pos hg', if_pos hg]
    obtain ⟨k, hk⟩ : ∃ k, MAX_LENGTH + 1 - q.length = k + 1 := ⟨MAX_LENGTH - q.length, by omega⟩
    have hk' : MAX_LENGTH + 1 - (q ++ [c]).length = k := by
      simp only [List.length_append, List.length_singleton]; omega
    simp only [fresh, hk, hk']
    rw [List.set_append_right _ _ (le_refl _)]
    simp [List.replicate_succ]
  · have hg' : ¬ (isprint c && decide ((fresh q).textlength < MAX_LENGTH)) = true := by
      simpa [fresh] using hg
    rw [if_neg hg', if_neg hg]

theorem loopBody_other (A : HANDLE) (c : Nat) (w1 w2 : WriteResult) (b : Buffer) (hc : c ≠ 10) :
    (loopBody A c w1 w2 b).1 = store c b ∧ parsedTexts (loopBody A c w1 w2 b).2 = [] ∧
    shownTexts (loopBody A c w1 w2 b).2 = [] ∧ writes (loopBody A c w1 w2 b).2 = [] := by
  unfold loopBody
  by_cases h98 : c = 98
  · simp [h98, parsedTexts, shownTexts, writes]
  · simp [h98, hc, parsedTexts, shownTexts, writes]

theorem iteration_other (A : HANDLE) (p : Poll) (b : Buffer) (hc : (readfromPort A p).1 ≠ 10) :
    (iteration A p b).1 = store (readfromPort A p).1 b ∧
    parsedTexts (iteration A p b).2 = [] ∧ shownTexts (iteration A p b).2 = [] := by
  obtain ⟨hq1, hq2, _⟩ := readfromPort_quiet A p
  unfold iteration
  by_cases h0 : (readfromPort A p).1 ≠ 0
  · obtain ⟨h1, h2, h3, _⟩ := loopBody_other A _ p.w1 p.w2 b hc
    rw [if_pos h0]
    simp [parsedTexts_append, shownTexts_append, hq1, hq2, h1, h2, h3]
  · rw [if_neg h0]
    simp only [ne_eq, not_not] at h0
    simp [h0, hq1, hq2, store, isprint]

theorem take_step (c : Nat) (q rest : List Nat) (hq : q.length ≤ MAX_LENGTH) :
    ((if isprint c = true ∧ q.length < MAX_LENGTH then q ++ [c] else q)
        ++ rest.filter isprint).take MAX_LENGTH
      = (q ++ (c :: rest).filter isprint).take MAX_LENGTH := by
  by_cases hp : isprint c = true
  · by_cases hl : q.length < MAX_LENGTH
    · simp [hp, hl, List.filter_cons]
    · have he : q.length = MAX_LENGTH := by omega
      simp only [hp, hl, and_false, if_false]
      rw [List.take_left' he, List.take_left' he]
  · simp [hp, List.filter_cons]

theorem whileLoop_no_newline (A : HANDLE) (ps : List Poll) (q : List Nat)
    (hq : q.length ≤ MAX_LENGTH) (hn : 10 ∉ received A ps) :
    (whileLoop A ps (fresh q)).1
        = fresh ((q ++ (received A ps).filter isprint).take MAX_LENGTH) ∧
    parsedTexts (whileLoop A ps (fresh q)).2 = [] ∧
    shownTexts (whileLoop A ps (fresh q)).2 = [] := by
  induction ps generalizing q with
  | nil =>
    have : q.take MAX_LENGTH = q := List.take_of_length_le hq
    simp [whileLoop, received, this, parsedTexts, shownTexts]
  | cons p ps ih =>
    simp only [received, List.map_cons, List.mem_cons, not_or] at hn
    obtain ⟨h1, h2, h3⟩ := iteration_other A p (fresh q) (fun h => hn.1 h.symm)
    have hlen : (if isprint (readfromPort A p).1 = true ∧ q.length < MAX_LENGTH
        then q ++ [(readfromPort A p).1] else q).length ≤ MAX_LENGTH := by
      split
      · rename_i h; simp only [List.length_append, List.length_singleton]; omega
      · exact hq
    obtain ⟨i1, i2, i3⟩ := ih _ hlen hn.2
    rw [store_fresh] at h1
    simp only [whileLoop, h1, parsedTexts_append, shownTexts_append, h2, h3, i1, i2, i3,
      List.append_nil, and_self, and_true]
    rw [take_step _ _ _ hq]
    simp [received]

theorem printable_ne_zero (q : List Nat) (hp : ∀ c ∈ q, isprint c = true) :
    ∀ c ∈ q, (c != 0) = true := by
  intro c hc
  have h := hp c hc
  simp only [isprint, Bool.and_eq_true, decide_eq_true_eq] at h
  simp only [bne_iff_ne, ne_eq]
  omega

theorem cstr_fresh (q : List Nat) (hp : ∀ c ∈ q, isprint c = true) (hq : q.length ≤ MAX_LENGTH) :
    cstr (fresh q).readtext = q := by
  obtain ⟨k, hk⟩ : ∃ k, MAX_LENGTH + 1 - q.length = k + 1 := ⟨MAX_LENGTH - q.length, by omega⟩
  simp only [cstr, fresh, hk]
  rw [List.takeWhile_append_of_pos (printable_ne_zero q hp)]
  simp [List.replicate_succ]

theorem lineText_printable (bytes : List Nat) : ∀ c ∈ lineText bytes, isprint c = true := by
  intro c hc
  have := List.mem_of_mem_take hc
  exact (List.mem_filter.mp this).2

theorem lineText_length (bytes : List Nat) : (lineText bytes).length ≤ MAX_LENGTH := by
  simp [lineText, List.length_take]

theorem hook_quiet (c : Bool) (n : Int) :
    parsedTexts (if c = true then [Call.doSomethingWith n] else []) = [] ∧
    shownTexts (if c = true then [Call.doSomethingWith n] else []) = [] := by
  cases c <;> exact ⟨rfl, rfl⟩

theorem iteration_newline (A : HANDLE) (p : Poll) (q : List Nat)
    (hp : ∀ c ∈ q, isprint c = true) (hq : q.length ≤ MAX_LENGTH)
    (hc : (readfromPort A p).1 = 10) :
    (iteration A p (fresh q)).1.textlength = 0 ∧
    cstr (iteration A p (fresh q)).1.readtext = [] ∧
    parsedTexts (iteration A p (fresh q)).2 = [q] ∧
    shownTexts (iteration A p (fresh q)).2 = (if q = [] then [] else [q]) := by
  obtain ⟨hq1, hq2, _⟩ := readfromPort_quiet A p
  obtain ⟨hs1, hs2⟩ := sendtoPort_quiet A ackText p.w1 p.w2
  have hst : store 10 (fresh q) = fresh q := by simp [store, isprint]
  have hcs := cstr_fresh q hp hq
  obtain ⟨k, hk⟩ : ∃ k, MAX_LENGTH + 1 - q.length = k + 1 := ⟨MAX_LENGTH - q.length, by omega⟩
  have hit : iteration A p (fresh q) =
      ((lineComplete A p.w1 p.w2 (fresh q)).1,
       (readfromPort A p).2 ++ (lineComplete A p.w1 p.w2 (fresh q)).2) := by
    simp [iteration, hc, loopBody, hst]
  rw [hit]
  refine ⟨rfl, ?_, ?_, ?_⟩
  · cases q with
    | nil => simp [lineComplete, fresh, cstr, hk, List.replicate_succ]
    | cons a l => simp [lineComplete, fresh, cstr]
  · have hh := (hook_quiet (hasNumber (fresh q).readtext) (strtol q)).1
    simp only [lineComplete, parsedTexts_append, hq1, hs1, hcs, hh]
    by_cases ht : (fresh q).textlength > 0 <;> simp [ht, parsedTexts]
  · have hh := (hook_quiet (hasNumber (fresh q).readtext) (strtol q)).2
    simp only [lineComplete, shownTexts_append, hq2, hs2, hcs, hh]
    cases q with
    | nil => simp [fresh, shownTexts]
    | cons a l => simp [fresh, shownTexts]

theorem nonempty_iff_textlength (b : Buffer) (hb : BufferOk b) :
    cstr b.readtext ≠ [] ↔ b.textlength > 0 := by
  obtain ⟨hl, _, hp, h0⟩ := hb
  cases hr : b.readtext with
  | nil => rw [hr] at hl; simp [MAX_LENGTH] at hl
  | cons a r =>
    rw [hr] at hp h0
    cases hn : b.textlength with
    | zero =>
      have := h0 hn
      simp only [List.head?_cons, Option.some.injEq] at this
      simp [cstr, this]
    | succ n =>
      rw [hn] at hp
      have ha := printable_ne_zero _ hp a (by simp)
      simp [cstr, List.takeWhile_cons, ha]

theorem sendtoPort_writes (A : HANDLE) (t : List Nat) (w1 w2 : WriteResult) (hA : A ≠ 0) :
    writes (sendtoPort A t w1 w2).2 = t :: (if w1.ok = true then [[10]] else []) := by
  unfold sendtoPort
  cases h1 : w1.ok <;> simp [hA, writes]

/-! ## Lemmas on the scan of the ports -/

theorem attempts_append (xs ys : List Call) :
    attempts (xs ++ ys) = attempts xs ++ attempts ys := by
  induction xs with
  | nil => rfl
  | cons x xs ih => cases x <;> simp [attempts, ih]

theorem descending_self (n : Nat) : descending n n = [n] := by
  have e : n + 1 - n = 1 := by omega
  simp [descending, e, List.range_succ]

theorem descending_succ (n k : Nat) (h : k ≤ n) :
    descending (n + 1) k = (n + 1) :: descending n k := by
  unfold descending
  have e : n + 1 + 1 - k = (n + 1 - k) + 1 := by omega
  rw [e, List.range_succ_eq_map]
  simp [List.map_map, Function.comp_def]

theorem connecttoPort_calls (nr : Nat) (p : PortProbe) :
    attempts (connecttoPort nr p).2 = [nr] ∧
    ∀ c ∈ (connecttoPort nr p).2, isLoopCall c = false ∧ c ≠ noPortWarning := by
  unfold connecttoPort
  split
  · simp [attempts, isLoopCall, noPortWarning]
  · split
    · simp [attempts, isLoopCall, noPortWarning]
    · split
      · refine ⟨by simp [attempts], ?_⟩
        intro c hc
        simp only [List.mem_cons, List.mem_singleton, List.not_mem_nil, or_false] at hc
        rcases hc with rfl | rfl | rfl | rfl | rfl | rfl <;>
          exact ⟨rfl, by simp [noPortWarning]⟩
      · simp [attempts, isLoopCall, noPortWarning]

theorem scanPorts_calls (os : Nat → PortProbe) (n : Nat) :
    ∀ c ∈ (scanPorts os n).2, isLoopCall c = false ∧ c ≠ noPortWarning := by
  induction n with
  | zero => exact (connecttoPort_calls 0 (os 0)).2
  | succ n ih =>
    intro c hc
    unfold scanPorts at hc
    by_cases hr : (connecttoPort (n + 1) (os (n + 1))).1 ≠ 0
    · simp only [hr, if_pos, ne_eq, not_false_eq_true, ite_true] at hc
      exact (connecttoPort_calls _ _).2 c hc
    · simp only [hr, ne_eq, ite_false, List.mem_append] at hc
      rcases hc with hc | hc
      · exact (connecttoPort_calls _ _).2 c hc
      · exact ih c hc

theorem scanPorts_none (os : Nat → PortProbe) (n : Nat)
    (h : ∀ j, j ≤ n → connects os j = false) :
    (scanPorts os n).1 = 0 ∧ attempts (scanPorts os n).2 = descending n 0 := by
  induction n with
  | zero =>
    have h0 := h 0 (le_refl _)
    simp only [connects, bne_eq_false_iff_eq] at h0
    exact ⟨h0, by rw [scanPorts, (connecttoPort_calls 0 (os 0)).1, descending_self]⟩
  | succ n ih =>
    have hn := h (n + 1) (le_refl _)
    simp only [connects, bne_eq_false_iff_eq] at hn
    obtain ⟨i1, i2⟩ := ih (fun j hj => h j (Nat.le_succ_of_le hj))
    have hs : scanPorts os (n + 1) =
        ((scanPorts os n).1, (connecttoPort (n + 1) (os (n + 1))).2 ++ (scanPorts os n).2) := by
      simp [scanPorts, hn]
    rw [hs]
    exact ⟨i1, by
      simp only [attempts_append, (connecttoPort_calls _ _).1, i2,
        descending_succ n 0 (Nat.zero_le _), List.singleton_append]⟩

theorem scanPorts_first (os : Nat → PortProbe) (n k : Nat) (hk : k ≤ n)
    (hc : connects os k = true) (hj : ∀ j, j ≤ n → k < j → connects os j = false) :
    (scanPorts os n).1 = (connecttoPort k (os k)).1 ∧
    attempts (scanPorts os n).2 = descending n k := by
  induction n with
  | zero =>
    have : k = 0 := by omega
    subst this
    exact ⟨rfl, by rw [scanPorts, (connecttoPort_calls 0 (os 0)).1, descending_self]⟩
  | succ n ih =>
    by_cases hkn : k = n + 1
    · subst hkn
      simp only [connects, bne_iff_ne, ne_eq] at hc
      have hs : scanPorts os (n + 1) = connecttoPort (n + 1) (os (n + 1)) := by
        simp [scanPorts, hc]
      rw [hs]
      exact ⟨rfl, by rw [(connecttoPort_calls _ _).1, descending_self]⟩
    · have hle : k ≤ n := by omega
      have hn := hj (n + 1) (le_refl _) (by omega)
      simp only [connects, bne_eq_false_iff_eq] at hn
      obtain ⟨i1, i2⟩ := ih hle (fun j h1 h2 => hj j (Nat.le_succ_of_le h1) h2)
      have hs : scanPorts os (n + 1) =
          ((scanPorts os n).1, (connecttoPort (n + 1) (os (n + 1))).2 ++ (scanPorts os n).2) := by
        simp [scanPorts, hn]
      rw [hs]
      exact ⟨i1, by
        simp only [attempts_append, (connecttoPort_calls _ _).1, i2,
          descending_succ n k hle, List.singleton_append]⟩

theorem readfromPort_attempts (A : HANDLE) (p : Poll) : attempts (readfromPort A p).2 = [] := by
  unfold readfromPort
  split
  · rfl
  · split
    · split <;> rfl
    · rfl

theorem sendtoPort_attempts (A : HANDLE) (t : List Nat) (w1 w2 : WriteResult) :
    attempts (sendtoPort A t w1 w2).2 = [] := by
  unfold sendtoPort
  split
  · rfl
  · split <;> rfl

theorem loopBody_attempts (A : HANDLE) (c : Nat) (w1 w2 : WriteResult) (b : Buffer) :
    attempts (loopBody A c w1 w2 b).2 = [] := by
  unfold loopBody
  by_cases h98 : c = 98
  · simp [h98, attempts]
  · by_cases h10 : c = 10
    · have hs := sendtoPort_attempts A ackText w1 w2
      by_cases ht : (store 10 b).textlength > 0 <;>
        by_cases hn : hasNumber (store 10 b).readtext = true <;>
        simp [h10, lineComplete, attempts_append, ht, hn, attempts, hs]
    · simp [h98, h10, attempts]

theorem whileLoop_attempts (A : HANDLE) (polls : List Poll) (b : Buffer) :
    attempts (whileLoop A polls b).2 = [] := by
  induction polls generalizing b with
  | nil => rfl
  | cons p ps ih =>
    have hi : attempts (iteration A p b).2 = [] := by
      unfold iteration
      by_cases h : (readfromPort A p).1 ≠ 0
      · rw [if_pos h]; simp [attempts_append, readfromPort_attempts, loopBody_attempts]
      · rw [if_neg h]; exact readfromPort_attempts A p
    simp [whileLoop, attempts_append, hi, ih]

theorem closePort_attempts (h : HANDLE) : attempts (closePort h) = [] := by
  unfold closePort
  split <;> rfl

/-! ## The properties -/

/-- C3, as the code has it: the condition of line 173 holds exactly when the base-10 parse of
the completed text is non-zero or the first character of the text is '0' (the rest of the text is
not looked at), and the branch of the numeric payload is entered exactly then, with the parsed
value. "042" yields 42, "abc" no payload, "0" the payload 0 and "" no payload. -/
theorem hasNumber_iff_parse_or_leading_zero (readtext : List Nat) :
    (hasNumber readtext = true ↔
      (strtol (cstr readtext) ≠ 0 ∨ (cstr readtext).head? = some 48)) ∧
    (∀ (A : HANDLE) (w1 w2 : WriteResult) (len : Nat) (n : Int),
      Call.doSomethingWith n ∈ (lineComplete A w1 w2 ⟨readtext, len⟩).2 ↔
        (hasNumber readtext = true ∧ n = strtol (cstr readtext))) ∧
    (strtol [48, 52, 50] = 42 ∧ hasNumber [48, 52, 50, 0] = true) ∧
    (strtol [97, 98, 99] = 0 ∧ hasNumber [97, 98, 99, 0] = false) ∧
    (strtol [48] = 0 ∧ hasNumber [48, 0] = true) ∧
    (strtol [] = 0 ∧ hasNumber [0] = false) := by
  refine ⟨?_, ?_, by decide, by decide, by decide, by decide⟩
  · rw [cstr_head]
    simp [hasNumber]
  · intro A w1 w2 len n
    have hs := sendtoPort_no_hook A ackText w1 w2 n
    unfold lineComplete
    by_cases hn : hasNumber readtext = true
    · by_cases ht : len > 0 <;> simp [hn, ht, hs]
    · by_cases ht : len > 0 <;> simp [hn, ht, hs]

/-- C3, counterexample: after the bytes '0','0' the text is "00"; its parse is zero and it is
not literally "0", yet the condition of line 173 holds. -/
theorem hasNumber_double_zero :
    cstr (whileLoop 7 ([48, 48].map rx) initBuffer).1.readtext = [48, 48] ∧
    ¬ (hasNumber (whileLoop 7 ([48, 48].map rx) initBuffer).1.readtext = true ↔
        (strtol (cstr (whileLoop 7 ([48, 48].map rx) initBuffer).1.readtext) ≠ 0 ∨
          cstr (whileLoop 7 ([48, 48].map rx) initBuffer).1.readtext = [48])) := by
  decide

/-- C4: after every iteration of the loop of `main`, the array still has its 101 characters,
`textlength` is at most 100, each of the first `textlength` characters is printable (so it is
neither a newline, nor a carriage return, nor NUL), and a store that the guard of line 154 lets
through writes at an index below 100, inside the array. -/
theorem buffer_invariant (Arduino : HANDLE) (polls : List Poll) :
    (whileLoop Arduino polls initBuffer).1.readtext.length = 101 ∧
    (whileLoop Arduino polls initBuffer).1.textlength ≤ 100 ∧
    (∀ c ∈ (whileLoop Arduino polls initBuffer).1.readtext.take
        (whileLoop Arduino polls initBuffer).1.textlength,
      isprint c = true ∧ c ≠ 10 ∧ c ≠ 13 ∧ c ≠ 0) ∧
    (∀ c, (isprint c && decide ((whileLoop Arduino polls initBuffer).1.textlength < MAX_LENGTH))
        = true →
      (whileLoop Arduino polls initBuffer).1.textlength < 100 ∧
      (whileLoop Arduino polls initBuffer).1.textlength <
        (whileLoop Arduino polls initBuffer).1.readtext.length) := by
  obtain ⟨hl, hn, hp, _⟩ := whileLoop_ok Arduino polls initBuffer initBuffer_ok
  refine ⟨hl, hn, ?_, ?_⟩
  · intro c hc
    have h := hp c hc
    refine ⟨h, ?_, ?_, ?_⟩ <;> (rintro rfl; revert h; decide)
  · intro c hc
    simp only [Bool.and_eq_true, decide_eq_true_eq, MAX_LENGTH] at hc
    refine ⟨hc.2, ?_⟩
    rw [hl]; simp only [MAX_LENGTH]; omega

/-- C4, witness: after the bytes 'h', 'i', carriage return, 'b'. -/
theorem buffer_invariant_witness :
    (whileLoop 7 ([104, 105, 13, 98].map rx) initBuffer).1.textlength ≤ 100 ∧
    (isprint 98 = true ∧ 98 ≠ 10 ∧ 98 ≠ 13 ∧ 98 ≠ 0) ∧
    ((whileLoop 7 ([104, 105, 13, 98].map rx) initBuffer).1.textlength < 100 ∧
      (whileLoop 7 ([104, 105, 13, 98].map rx) initBuffer).1.textlength <
        (whileLoop 7 ([104, 105, 13, 98].map rx) initBuffer).1.readtext.length) :=
  ⟨(buffer_invariant 7 ([104, 105, 13, 98].map rx)).2.1,
   (buffer_invariant 7 ([104, 105, 13, 98].map rx)).2.2.1 98 (by decide),
   (buffer_invariant 7 ([104, 105, 13, 98].map rx)).2.2.2 120 (by decide)⟩

/-- C6, counterexample: on an open handle the second call of `closePort` flushes and releases
the device again, so two calls are not the same as one. -/
theorem closePort_twice_differs : closePort 1 ++ closePort 1 ≠ closePort 1 := by decide

/-- C6, as the code has it: on a session holding no device `closePort` performs no device
operation, so calling it twice is the same as calling it once; on an open handle every call
flushes and then releases that handle. -/
theorem closePort_calls (serialPort : HANDLE) :
    (serialPort = 0 → closePort serialPort = [] ∧
      closePort serialPort ++ closePort serialPort = closePort serialPort) ∧
    (serialPort ≠ 0 →
      closePort serialPort = [Call.FlushFileBuffers serialPort, Call.CloseHandle serialPort]) := by
  constructor
  · intro h; simp [closePort, h]
  · intro h; simp [closePort, h]

/-- C6, witness: no device, and the handle 5. -/
theorem closePort_calls_witness :
    (closePort 0 = [] ∧ closePort 0 ++ closePort 0 = closePort 0) ∧
    closePort 5 = [Call.FlushFileBuffers 5, Call.CloseHandle 5] :=
  ⟨(closePort_calls 0).1 rfl, (closePort_calls 5).2 (by decide)⟩

/-- C7, counterexample: the write of the 19 characters of the text accepts 3 of them and
reports success; `sendtoPort` returns success. -/
theorem sendtoPort_partial_write_succeeds :
    sendtoPort 7 ackText ⟨true, 3⟩ ⟨true, 1⟩
      = (1, [Call.WriteFile 7 ackText 3, Call.WriteFile 7 [10] 1]) ∧ 3 < ackText.length := by
  decide

/-- C7, as the code has it: `sendtoPort` returns success exactly when a device is open and both
write calls report success, whatever number of bytes they accepted; with no open device it
returns failure and issues no write; when the write of the text reports failure it returns
failure and the newline is not written; otherwise the text and then one newline are written. -/
theorem sendtoPort_result (serialPort : HANDLE) (sendText : List Nat) (w1 w2 : WriteResult) :
    ((sendtoPort serialPort sendText w1 w2).1 ≠ 0 ↔
      (serialPort ≠ 0 ∧ w1.ok = true ∧ w2.ok = true)) ∧
    (serialPort = 0 → sendtoPort serialPort sendText w1 w2 = (0, [])) ∧
    (serialPort ≠ 0 → w1.ok = false →
      sendtoPort serialPort sendText w1 w2
        = (0, [Call.WriteFile serialPort sendText w1.bytesSent])) ∧
    (serialPort ≠ 0 → w1.ok = true →
      (sendtoPort serialPort sendText w1 w2).2
        = [Call.WriteFile serialPort sendText w1.bytesSent,
           Call.WriteFile serialPort [10] w2.bytesSent]) := by
  refine ⟨?_, ?_, ?_, ?_⟩
  · unfold sendtoPort
    by_cases h : serialPort = 0
    · simp [h]
    · cases h1 : w1.ok <;> cases h2 : w2.ok <;> simp [h]
  · intro h; simp [sendtoPort, h]
  · intro h h1; simp [sendtoPort, h, h1]
  · intro h h1; simp [sendtoPort, h, h1]

/-- C7, witness: no device; a failed write of the text; two successful writes. -/
theorem sendtoPort_result_witness :
    sendtoPort 0 ackText ⟨true, 19⟩ ⟨true, 1⟩ = (0, []) ∧
    sendtoPort 7 ackText ⟨false, 0⟩ ⟨true, 1⟩ = (0, [Call.WriteFile 7 ackText 0]) ∧
    (sendtoPort 7 ackText ⟨true, 19⟩ ⟨true, 1⟩).2
      = [Call.WriteFile 7 ackText 19, Call.WriteFile 7 [10] 1] :=
  ⟨(sendtoPort_result 0 ackText ⟨true, 19⟩ ⟨true, 1⟩).2.1 rfl,
   (sendtoPort_result 7 ackText ⟨false, 0⟩ ⟨true, 1⟩).2.2.1 (by decide) rfl,
   (sendtoPort_result 7 ackText ⟨true, 19⟩ ⟨true, 1⟩).2.2.2 (by decide) rfl⟩

/-- C8: `readfromPort` returns none (0) without any call when no device is held, returns none
without a `ReadFile` call when the pending-input count is 0, and returns none when input is
pending but `ReadFile` fails; whenever it returns none, the iteration of the loop leaves
`readtext` and `textlength` as they were and makes no tone, message or write. -/
theorem readfromPort_none (serialPort : HANDLE) (p : Poll) (b : Buffer) :
    (serialPort = 0 → readfromPort serialPort p = (0, [])) ∧
    (p.cbInQue = 0 → (readfromPort serialPort p).1 = 0 ∧
      ∀ h, Call.ReadFile h ∉ (readfromPort serialPort p).2) ∧
    (p.cbInQue ≠ 0 → p.readOk = false → (readfromPort serialPort p).1 = 0) ∧
    ((readfromPort serialPort p).1 = 0 →
      (iteration serialPort p b).1 = b ∧
      ∀ c ∈ (iteration serialPort p b).2, isReaction c = false) := by
  refine ⟨?_, ?_, ?_, ?_⟩
  · intro h; simp [readfromPort, h]
  · intro h
    by_cases h0 : serialPort = 0 <;> simp [readfromPort, h, h0]
  · intro h hr
    by_cases h0 : serialPort = 0 <;> simp [readfromPort, h, h0, hr]
  · intro h
    have hit : iteration serialPort p b = (b, (readfromPort serialPort p).2) := by
      simp [iteration, h]
    rw [hit]
    refine ⟨rfl, ?_⟩
    intro c hc
    simp only [readfromPort] at hc
    split at hc
    · simp at hc
    · split at hc
      · split at hc <;> simp at hc <;> rcases hc with rfl | rfl <;> rfl
      · simp at hc; subst hc; rfl

/-- C8, witness: no device; nothing pending; a failing read; and the iteration with nothing
pending. -/
theorem readfromPort_none_witness :
    readfromPort 0 (rx 104) = (0, []) ∧
    (readfromPort 7 ⟨0, true, 104, ⟨true, 19⟩, ⟨true, 1⟩⟩).1 = 0 ∧
    (readfromPort 7 ⟨1, false, 104, ⟨true, 19⟩, ⟨true, 1⟩⟩).1 = 0 ∧
    (iteration 7 ⟨0, true, 104, ⟨true, 19⟩, ⟨true, 1⟩⟩ initBuffer).1 = initBuffer :=
  ⟨(readfromPort_none 0 (rx 104) initBuffer).1 rfl,
   ((readfromPort_none 7 ⟨0, true, 104, ⟨true, 19⟩, ⟨true, 1⟩⟩ initBuffer).2.1 rfl).1,
   (readfromPort_none 7 ⟨1, false, 104, ⟨true, 19⟩, ⟨true, 1⟩⟩ initBuffer).2.2.1 (by decide) rfl,
   ((readfromPort_none 7 ⟨0, true, 104, ⟨true, 19⟩, ⟨true, 1⟩⟩ initBuffer).2.2.2 (by decide)).1⟩

/-- C10: for every buffer, the byte 'b' makes exactly one tone and the buffer afterwards is the
one the store rule of lines 154-156 gives ('b' appended when `textlength < 100`, the buffer
unchanged when it is full); for every other byte no tone is made and the same store rule is
applied (for a newline, which the rule does not store, the reset of the completed line follows);
the store rule appends a byte exactly when it is printable and `textlength < 100`. -/
theorem tone_and_store_independent (Arduino : HANDLE) (w1 w2 : WriteResult) (b : Buffer) :
    loopBody Arduino 98 w1 w2 b = (store 98 b, [Call.Beep 500 100]) ∧
    (b.textlength < 100 →
      store 98 b = ⟨b.readtext.set b.textlength 98, b.textlength + 1⟩) ∧
    (¬ b.textlength < 100 → store 98 b = b) ∧
    (∀ c, c ≠ 98 →
      (∀ f d, Call.Beep f d ∉ (loopBody Arduino c w1 w2 b).2) ∧
      (c ≠ 10 → loopBody Arduino c w1 w2 b = (store c b, [])) ∧
      (c = 10 → store c b = b ∧
        (loopBody Arduino c w1 w2 b).1 = ⟨(store c b).readtext.set 0 0, 0⟩)) ∧
    (∀ c, store c b =
      if isprint c = true ∧ b.textlength < 100 then
        ⟨b.readtext.set b.textlength c, b.textlength + 1⟩
      else b) := by
  refine ⟨?_, ?_, ?_, ?_, ?_⟩
  · simp [loopBody]
  · intro h; simp [store, isprint, MAX_LENGTH, h]
  · intro h; simp [store, MAX_LENGTH, h]
  · intro c hc
    refine ⟨?_, ?_, ?_⟩
    · intro f d
      by_cases h10 : c = 10
      · subst h10
        have hs := sendtoPort_no_beep Arduino ackText w1 w2 f d
        simp only [loopBody, lineComplete]
        by_cases hn : hasNumber (store 10 b).readtext = true <;>
          by_cases ht : (store 10 b).textlength > 0 <;> simp [hn, ht, hs]
      · simp [loopBody, hc, h10]
    · intro h10; simp [loopBody, hc, h10]
    · intro h10; subst h10
      have hs : store 10 b = b := by simp [store, isprint]
      simp [loopBody, lineComplete, hs]
  · intro c
    simp [store, MAX_LENGTH]

/-- C10, witness: from the empty buffer the byte 'b' makes the tone and leaves the buffer equal
to "b"; the byte 'h' makes no tone and is stored by the same rule. -/
theorem tone_and_store_independent_witness :
    loopBody 7 98 ⟨true, 19⟩ ⟨true, 1⟩ initBuffer = (store 98 initBuffer, [Call.Beep 500 100]) ∧
    store 98 initBuffer = ⟨initBuffer.readtext.set initBuffer.textlength 98,
      initBuffer.textlength + 1⟩ ∧
    cstr (store 98 initBuffer).readtext = [98] ∧
    loopBody 7 104 ⟨true, 19⟩ ⟨true, 1⟩ initBuffer = (store 104 initBuffer, []) :=
  ⟨(tone_and_store_independent 7 ⟨true, 19⟩ ⟨true, 1⟩ initBuffer).1,
   (tone_and_store_independent 7 ⟨true, 19⟩ ⟨true, 1⟩ initBuffer).2.1 (by decide),
   by decide,
   ((tone_and_store_independent 7 ⟨true, 19⟩ ⟨true, 1⟩ initBuffer).2.2.2.1 104
      (by decide)).2.1 (by decide)⟩

/-- C1, the code at the bytes "hello", newline, "ab", newline: the text shown to the user and
handed to the numeric parse at the second newline is "abllo", not "ab", since the reset of
line 181 clears only `readtext[0]` and line 155 stores no closing NUL. -/
theorem second_line_keeps_stale_characters :
    parsedTexts (whileLoop 7 ([104, 101, 108, 108, 111, 10, 97, 98, 10].map rx) initBuffer).2
      = [[104, 101, 108, 108, 111], [97, 98, 108, 108, 111]] ∧
    shownTexts (whileLoop 7 ([104, 101, 108, 108, 111, 10, 97, 98, 10].map rx) initBuffer).2
      = [[104, 101, 108, 108, 111], [97, 98, 108, 108, 111]] ∧
    lineText [97, 98] = [97, 98] := by
  decide

/-- C2: from the initial buffer, when the bytes received are `pre` followed by one newline and
`pre` holds no newline, the line-complete branch is entered exactly once, with the text equal to
the printable bytes of `pre` cut to the first 100; that text is shown when it is not empty, and
afterwards `textlength` is 0 and `readtext` reads as the empty string. -/
theorem single_line_text (Arduino : HANDLE) (polls : List Poll) (pre : List Nat)
    (h : received Arduino polls = pre ++ [10]) (hpre : 10 ∉ pre) :
    parsedTexts (whileLoop Arduino polls initBuffer).2 = [lineText pre] ∧
    shownTexts (whileLoop Arduino polls initBuffer).2
      = (if lineText pre = [] then [] else [lineText pre]) ∧
    (whileLoop Arduino polls initBuffer).1.textlength = 0 ∧
    cstr (whileLoop Arduino polls initBuffer).1.readtext = [] := by
  rcases List.eq_nil_or_concat polls with hnil | ⟨ps, p, hps⟩
  · subst hnil; simp [received] at h
  · rw [List.concat_eq_append] at hps
    subst hps
    simp only [received, List.map_append, List.map_cons, List.map_nil] at h
    obtain ⟨h1, h2⟩ := List.append_inj' h rfl
    simp only [List.cons.injEq, and_true] at h2
    have hn : 10 ∉ received Arduino ps := by rw [received, h1]; exact hpre
    have hinit : initBuffer = fresh [] := rfl
    obtain ⟨w1, w2, w3⟩ := whileLoop_no_newline Arduino ps [] (Nat.zero_le _) hn
    rw [received, h1, List.nil_append] at w1
    obtain ⟨n1, n2, n3, n4⟩ := iteration_newline Arduino p (lineText pre)
      (lineText_printable pre) (lineText_length pre) h2
    have hlast : ∀ b, whileLoop Arduino [p] b = ((iteration Arduino p b).1, (iteration Arduino p b).2) := by
      intro b; simp [whileLoop]
    have w1' : (whileLoop Arduino ps (fresh [])).1 = fresh (lineText pre) := w1
    rw [whileLoop_append, hinit, hlast, w1']
    simp only [parsedTexts_append, shownTexts_append, w2, w3, List.nil_append]
    exact ⟨n3, n4, n1, n2⟩

/-- C2, witness: the bytes 'h', 'i', newline give the text "hi". -/
theorem single_line_text_witness :
    parsedTexts (whileLoop 7 ([104, 105, 10].map rx) initBuffer).2 = [lineText [104, 105]] ∧
    lineText [104, 105] = [104, 105] ∧
    (whileLoop 7 ([104, 105, 10].map rx) initBuffer).1.textlength = 0 ∧
    cstr (whileLoop 7 ([104, 105, 10].map rx) initBuffer).1.readtext = [] :=
  ⟨(single_line_text 7 ([104, 105, 10].map rx) [104, 105] (by decide) (by decide)).1,
   by decide,
   (single_line_text 7 ([104, 105, 10].map rx) [104, 105] (by decide) (by decide)).2.2.1,
   (single_line_text 7 ([104, 105, 10].map rx) [104, 105] (by decide) (by decide)).2.2.2⟩

/-- C5: whatever the ports answer, when port `k` of 0..20 connects and no greater port of 0..20
does, the ports tried are 20, 19, ..., `k` in this order and no other, `Arduino` is the handle
of port `k`, and `main` runs the loop and closes with that handle; when no port of 0..20
connects, the ports tried are 20, ..., 0, and `main` shows "could not connect to serial port"
once and returns 0 without any call of the read loop (no read, no write, no message). -/
theorem port_scan_descending (os : Nat → PortProbe) (polls : List Poll) (k : Nat) :
    (k ≤ 20 → connects os k = true → (∀ j, j ≤ 20 → k < j → connects os j = false) →
      (scanPorts os 20).1 = (connecttoPort k (os k)).1 ∧
      attempts (scanPorts os 20).2 = descending 20 k ∧
      attempts (main os polls).2 = descending 20 k ∧
      main os polls =
        (1, (scanPorts os 20).2 ++ (whileLoop (connecttoPort k (os k)).1 polls initBuffer).2
              ++ closePort (connecttoPort k (os k)).1)) ∧
    ((∀ j, j ≤ 20 → connects os j = false) →
      attempts (scanPorts os 20).2 = descending 20 0 ∧
      main os polls = (0, (scanPorts os 20).2 ++ [noPortWarning]) ∧
      (main os polls).2.count noPortWarning = 1 ∧
      ∀ c ∈ (main os polls).2, isLoopCall c = false) := by
  constructor
  · intro hk hc hj
    obtain ⟨h1, h2⟩ := scanPorts_first os 20 k hk hc hj
    simp only [connects, bne_iff_ne, ne_eq] at hc
    have hm : main os polls =
        (1, (scanPorts os 20).2 ++ (whileLoop (connecttoPort k (os k)).1 polls initBuffer).2
              ++ closePort (connecttoPort k (os k)).1) := by
      simp [main, h1, hc]
    refine ⟨h1, h2, ?_, hm⟩
    rw [hm]
    simp [attempts_append, whileLoop_attempts, closePort_attempts, h2]
  · intro hall
    obtain ⟨h1, h2⟩ := scanPorts_none os 20 hall
    have hm : main os polls = (0, (scanPorts os 20).2 ++ [noPortWarning]) := by
      simp [main, h1, noPortWarning]
    refine ⟨h2, hm, ?_, ?_⟩
    · rw [hm]
      have hz : (scanPorts os 20).2.count noPortWarning = 0 :=
        List.count_eq_zero.mpr (fun hin => (scanPorts_calls os 20 _ hin).2 rfl)
      simp [List.count_append, hz]
    · rw [hm]
      intro c hc
      simp only [List.mem_append, List.mem_singleton] at hc
      rcases hc with hc | rfl
      · exact (scanPorts_calls os 20 c hc).1
      · rfl

/-- C5, witness: only port 17 holds a serial device; no port can be opened. -/
theorem port_scan_descending_witness :
    ((scanPorts onlyPort17 20).1 = (connecttoPort 17 (onlyPort17 17)).1 ∧
      attempts (scanPorts onlyPort17 20).2 = descending 20 17 ∧
      attempts (main onlyPort17 [rx 104]).2 = descending 20 17 ∧
      main onlyPort17 [rx 104] =
        (1, (scanPorts onlyPort17 20).2 ++
              (whileLoop (connecttoPort 17 (onlyPort17 17)).1 [rx 104] initBuffer).2
              ++ closePort (connecttoPort 17 (onlyPort17 17)).1)) ∧
    (attempts (scanPorts noPort 20).2 = descending 20 0 ∧
      main noPort [rx 104] = (0, (scanPorts noPort 20).2 ++ [noPortWarning]) ∧
      (main noPort [rx 104]).2.count noPortWarning = 1 ∧
      ∀ c ∈ (main noPort [rx 104]).2, isLoopCall c = false) :=
  ⟨(port_scan_descending onlyPort17 [rx 104] 17).1 (by decide) (by decide) (by decide),
   (port_scan_descending noPort [rx 104] 0).2 (by decide)⟩

/-- C9: in the loop of `main` (where `Arduino` is not `NULL`), at any buffer the loop reaches, a
received newline makes exactly one call `sendtoPort(Arduino, "message received!!!")`, which
writes that text once and, the write being accepted, one newline; the message box is shown
exactly when the accumulated text is not empty, with that text; a received byte other than a
newline makes no write and shows no message. The bytes 'h', 'i', newline show "hi", enter no
numeric branch and write one acknowledgement. -/
theorem newline_acknowledged (Arduino : HANDLE) (b : Buffer) (w1 w2 : WriteResult) (c : Nat)
    (hA : Arduino ≠ 0) (hb : ∃ polls, (whileLoop Arduino polls initBuffer).1 = b) :
    (loopBody Arduino 10 w1 w2 b).2 =
      (if cstr b.readtext = [] then [] else [Call.MessageBox (cstr b.readtext)])
      ++ [Call.strtol (cstr b.readtext)]
      ++ (if hasNumber b.readtext = true then [Call.doSomethingWith (strtol (cstr b.readtext))]
          else [])
      ++ (sendtoPort Arduino ackText w1 w2).2 ∧
    writes (loopBody Arduino 10 w1 w2 b).2 = ackText :: (if w1.ok = true then [[10]] else []) ∧
    shownTexts (loopBody Arduino 10 w1 w2 b).2
      = (if cstr b.readtext = [] then [] else [cstr b.readtext]) ∧
    (c ≠ 10 → writes (loopBody Arduino c w1 w2 b).2 = [] ∧
      shownTexts (loopBody Arduino c w1 w2 b).2 = []) ∧
    (whileLoop 7 ([104, 105, 10].map rx) initBuffer).2 =
      [Call.ClearCommError 7, Call.ReadFile 7, Call.ClearCommError 7, Call.ReadFile 7,
       Call.ClearCommError 7, Call.ReadFile 7, Call.MessageBox [104, 105],
       Call.strtol [104, 105], Call.WriteFile 7 ackText 19, Call.WriteFile 7 [10] 1] := by
  obtain ⟨polls, rfl⟩ := hb
  have hok := whileLoop_ok Arduino polls initBuffer initBuffer_ok
  have hne := nonempty_iff_textlength _ hok
  have hst : ∀ b : Buffer, store 10 b = b := by intro b; simp [store, isprint]
  have hw := sendtoPort_writes Arduino ackText w1 w2 hA
  obtain ⟨hs1, hs2⟩ := sendtoPort_quiet Arduino ackText w1 w2
  have htr : (loopBody Arduino 10 w1 w2 (whileLoop Arduino polls initBuffer).1).2 =
      (if cstr (whileLoop Arduino polls initBuffer).1.readtext = [] then []
        else [Call.MessageBox (cstr (whileLoop Arduino polls initBuffer).1.readtext)])
      ++ [Call.strtol (cstr (whileLoop Arduino polls initBuffer).1.readtext)]
      ++ (if hasNumber (whileLoop Arduino polls initBuffer).1.readtext = true then
            [Call.doSomethingWith (strtol (cstr (whileLoop Arduino polls initBuffer).1.readtext))]
          else [])
      ++ (sendtoPort Arduino ackText w1 w2).2 := by
    simp only [loopBody, lineComplete, hst]
    by_cases ht : (whileLoop Arduino polls initBuffer).1.textlength > 0
    · have := hne.mpr ht
      simp [ht, this]
    · have : cstr (whileLoop Arduino polls initBuffer).1.readtext = [] := by
        by_contra hcon; exact ht (hne.mp hcon)
      simp [ht, this]
  refine ⟨htr, ?_, ?_, ?_, by decide⟩
  · rw [htr]
    simp only [writes_append, hw]
    by_cases hx : cstr (whileLoop Arduino polls initBuffer).1.readtext = [] <;>
      by_cases hn : hasNumber (whileLoop Arduino polls initBuffer).1.readtext = true <;>
      simp [hx, hn, writes]
  · rw [htr]
    simp only [shownTexts_append, hs2]
    by_cases hx : cstr (whileLoop Arduino polls initBuffer).1.readtext = [] <;>
      by_cases hn : hasNumber (whileLoop Arduino polls initBuffer).1.readtext = true <;>
      simp [hx, hn, shownTexts]
  · intro hc
    obtain ⟨_, _, h3, h4⟩ := loopBody_other Arduino c w1 w2 (whileLoop Arduino polls initBuffer).1 hc
    exact ⟨h4, h3⟩

/-- C9, witness: after 'h', 'i', a newline and then the byte 'h'. -/
theorem newline_acknowledged_witness :
    writes (loopBody 7 10 ⟨true, 19⟩ ⟨true, 1⟩ (whileLoop 7 ([104, 105].map rx) initBuffer).1).2
      = ackText :: (if (⟨true, 19⟩ : WriteResult).ok = true then [[10]] else []) ∧
    (writes (loopBody 7 104 ⟨true, 19⟩ ⟨true, 1⟩ (whileLoop 7 ([104, 105].map rx) initBuffer).1).2
      = [] ∧
     shownTexts (loopBody 7 104 ⟨true, 19⟩ ⟨true, 1⟩
      (whileLoop 7 ([104, 105].map rx) initBuffer).1).2 = []) :=
  ⟨(newline_acknowledged 7 _ ⟨true, 19⟩ ⟨true, 1⟩ 104 (by decide)
      ⟨[104, 105].map rx, rfl⟩).2.1,
   (newline_acknowledged 7 _ ⟨true, 19⟩ ⟨true, 1⟩ 104 (by decide)
      ⟨[104, 105].map rx, rfl⟩).2.2.2.1 (by decide)⟩

end ArduinoSerial
